import Mathlib

set_option maxHeartbeats 1000000
set_option maxRecDepth 10000

/-!
Verification of the keyutils key-management layer.

The development embeds, from the visible sources, the ByteBuf lower-hex
formatter of src/src/keytypes/mod.rs, and models, from the written
specification, the key facade (serial construction, add, read, update,
unlink) together with the kernel key subsystem it drives, since the crate
code behind the facade is not part of the visible sources. The behavior
pinned by the tests of src/src/tests/add.rs is reflected in the model.
-/

/-- Lowercase hexadecimal digit character for a value below sixteen, as the
Rust lower-hex formatter produces it: digits zero to nine, then letters a
to f. -/
def hexChar (n : Nat) : Char :=
  if n < 10 then Char.ofNat (48 + n) else Char.ofNat (87 + n)

/-- Embeds the Rust formatter directive used by ByteBuf, lower hex with
zero padding to width two: the minimal lowercase hexadecimal digit string
of the value, left padded with a zero when shorter than two characters. -/
def fmtLowerHex2 (n : Nat) : String :=
  let s := String.mk (Nat.toDigits 16 n)
  if s.length < 2 then "0" ++ s else s

/-- Embeds the LowerHex instance of ByteBuf from src/src/keytypes/mod.rs:
the loop writes each byte with the width-two zero-padded lower-hex
directive, accumulating into the formatter output. -/
def byteBufHex (bs : List Nat) : String :=
  bs.foldl (fun acc b => acc ++ fmtLowerHex2 b) ""

/-- Follows the words of claim C10: the two-character lowercase zero-padded
hexadecimal encoding of a single byte, high nibble first. -/
def hexPairStr (b : Nat) : String :=
  String.mk [hexChar (b / 16), hexChar (b % 16)]

/-- Concatenation of a list of strings in order. -/
def concatAll : List String → String
  | [] => ""
  | s :: l => s ++ concatAll l

theorem mk_append (d1 d2 : List Char) :
    String.mk d1 ++ String.mk d2 = String.mk (d1 ++ d2) := rfl

theorem length_mk (d : List Char) : (String.mk d).length = d.length := rfl

theorem empty_append_str (s : String) : "" ++ s = s := by
  cases s with
  | mk d => rfl

theorem append_empty_str (s : String) : s ++ "" = s := by
  cases s with
  | mk d => exact congrArg String.mk (List.append_nil d)

theorem append_assoc_str (a b c : String) : a ++ b ++ c = a ++ (b ++ c) := by
  cases a with
  | mk d1 =>
    cases b with
    | mk d2 =>
      cases c with
      | mk d3 => exact congrArg String.mk (List.append_assoc d1 d2 d3)

theorem length_append_str (a b : String) : (a ++ b).length = a.length + b.length := by
  cases a with
  | mk d1 =>
    cases b with
    | mk d2 => exact List.length_append d1 d2

/-- On every byte value the width-two formatter agrees with the explicit
nibble-pair encoding. -/
theorem fmtLowerHex2_eq_pair : ∀ b : Nat, b < 256 → fmtLowerHex2 b = hexPairStr b := by
  decide

theorem byteBufHex_foldl (bs : List Nat) :
    ∀ acc : String,
      bs.foldl (fun a b => a ++ fmtLowerHex2 b) acc = acc ++ concatAll (bs.map fmtLowerHex2) := by
  induction bs with
  | nil =>
    intro acc
    simp only [List.foldl, List.map, concatAll]
    exact (append_empty_str acc).symm
  | cons b rest ih =>
    intro acc
    simp only [List.foldl, List.map, concatAll]
    rw [ih (acc ++ fmtLowerHex2 b), append_assoc_str]

theorem map_fmt_eq_pair (bs : List Nat) (h : ∀ b ∈ bs, b < 256) :
    bs.map fmtLowerHex2 = bs.map hexPairStr := by
  induction bs with
  | nil => rfl
  | cons b rest ih =>
    simp only [List.map]
    rw [fmtLowerHex2_eq_pair b (h b (List.mem_cons_self b rest)),
      ih (fun x hx => h x (List.mem_cons_of_mem b hx))]

theorem concatAll_pairs_length (bs : List Nat) :
    (concatAll (bs.map hexPairStr)).length = 2 * bs.length := by
  induction bs with
  | nil => rfl
  | cons b rest ih =>
    simp only [List.map, concatAll]
    rw [length_append_str, ih]
    simp only [hexPairStr, length_mk, List.length_cons, List.length_nil]
    omega

/-- C10: formatting a byte buffer with the ByteBuf LowerHex formatter
yields exactly the concatenation, in slice order, of the two-character
lowercase zero-padded hexadecimal encodings of the bytes; hence the output
has twice as many characters as there are bytes, and the empty buffer
formats to the empty string. -/
theorem c10_bytebuf_hex (bs : List Nat) (h : ∀ b ∈ bs, b < 256) :
    byteBufHex bs = concatAll (bs.map hexPairStr) ∧
    (byteBufHex bs).length = 2 * bs.length ∧
    byteBufHex ([] : List Nat) = "" := by
  have h1 : byteBufHex bs = concatAll (bs.map hexPairStr) := by
    rw [byteBufHex, byteBufHex_foldl bs "", empty_append_str, map_fmt_eq_pair bs h]
  refine ⟨h1, ?_, rfl⟩
  rw [h1, concatAll_pairs_length]

/-- Witness for C10 at the byte list of the repository test, 222 173 190
and 239, whose rendering is the string deadbeef. -/
theorem c10_bytebuf_hex_witness :
    (byteBufHex [222, 173, 190, 239] = concatAll ([222, 173, 190, 239].map hexPairStr) ∧
      (byteBufHex [222, 173, 190, 239]).length = 2 * ([222, 173, 190, 239] : List Nat).length ∧
      byteBufHex ([] : List Nat) = "") ∧
    byteBufHex [222, 173, 190, 239] = "deadbeef" :=
  ⟨c10_bytebuf_hex [222, 173, 190, 239] (by decide), by decide⟩

/-- Taxonomy of kernel-reported failures, from section 4.2 of the
specification. -/
inductive KeyError where
  | InvalidArgument
  | UnsupportedKeyType
  | PermissionDenied
  | QuotaExceeded
  | KeyNotFound
  | KeyExpired
  | KeyRevoked
  | KeyRejected
  | OutOfMemory
  | Other (raw : Nat)
deriving DecidableEq

/-- Modelled from the spec (section 4.2): the pure mapping from the errno a
syscall returned to the domain error kind, identical for every operation. -/
def errnoToError (e : Nat) : KeyError :=
  if e = 22 then KeyError.InvalidArgument
  else if e = 19 then KeyError.UnsupportedKeyType
  else if e = 1 then KeyError.PermissionDenied
  else if e = 13 then KeyError.PermissionDenied
  else if e = 122 then KeyError.QuotaExceeded
  else if e = 126 then KeyError.KeyNotFound
  else if e = 127 then KeyError.KeyExpired
  else if e = 128 then KeyError.KeyRevoked
  else if e = 129 then KeyError.KeyRejected
  else if e = 12 then KeyError.OutOfMemory
  else KeyError.Other e

/-- Byte view of an ASCII string, as the bytes handed to the kernel. -/
def strBytes (s : String) : List Nat := s.data.map Char.toNat

/-- Modelled from the spec (section 3): one kernel-resident key, identified
by its serial, with its wire type name, description and stored payload. -/
structure KernelKey where
  serial : Int
  typeName : String
  description : String
  payload : List Nat
deriving DecidableEq

/-- Modelled from the spec (sections 3 and 6): the kernel key subsystem
state the facade drives, together with the environment facts the kernel
consults, namely the page size bounding descriptions and the per-uid byte
quota. -/
structure KernelState where
  keys : List KernelKey
  nextSerial : Int
  pageSize : Nat
  quotaUsedBytes : Nat
  quotaMaxBytes : Nat
  supportedTypes : List String
deriving DecidableEq

/-- Lookup of a key by serial, first match in list order. -/
def findKey : List KernelKey → Int → Option KernelKey
  | [], _ => none
  | k :: ks, s => if k.serial = s then some k else findKey ks s

/-- Replacement of the payload of every key carrying the given serial. -/
def updatePayloadIn : List KernelKey → Int → List Nat → List KernelKey
  | [], _, _ => []
  | k :: ks, s, p =>
    if k.serial = s then { k with payload := p } :: updatePayloadIn ks s p
    else k :: updatePayloadIn ks s p

/-- Removal of every key carrying the given serial. -/
def removeKey : List KernelKey → Int → List KernelKey
  | [], _ => []
  | k :: ks, s => if k.serial = s then removeKey ks s else k :: removeKey ks s

/-- Whether some key carries the given serial. -/
def anySerial : List KernelKey → Int → Bool
  | [], _ => false
  | k :: ks, s => decide (k.serial = s) || anySerial ks s

/-- Lookup of a master key by wire type name and description, both given as
the byte sequences the kernel parsed out of a payload command. -/
def findMasterIn : List KernelKey → List Nat → List Nat → Option KernelKey
  | [], _, _ => none
  | k :: ks, kt, d =>
    if strBytes k.typeName = kt ∧ strBytes k.description = d then some k
    else findMasterIn ks kt d

/-- Strips the first list from the front of the second, byte by byte. -/
def dropPre : List Nat → List Nat → Option (List Nat)
  | [], l => some l
  | _ :: _, [] => none
  | p :: ps, x :: xs => if x = p then dropPre ps xs else none

/-- Splits at the first occurrence of a byte, dropping that byte. -/
def splitFirst (b : Nat) : List Nat → Option (List Nat × List Nat)
  | [] => none
  | x :: xs =>
    if x = b then some ([], xs)
    else
      match splitFirst b xs with
      | some p => some (x :: p.1, p.2)
      | none => none

/-- Splits at every occurrence of a byte, dropping the occurrences. -/
def splitOnByte (b : Nat) : List Nat → List (List Nat)
  | [] => [[]]
  | x :: xs =>
    if x = b then [] :: splitOnByte b xs
    else
      match splitOnByte b xs with
      | [] => [[x]]
      | y :: ys => (x :: y) :: ys

/-- Whether the second list begins with the first. -/
def listHasPre : List Nat → List Nat → Bool
  | [], _ => true
  | _ :: _, [] => false
  | p :: ps, x :: xs => decide (x = p) && listHasPre ps xs

/-- Modelled from the spec (section 4.4 and the tests it cites): a
keyring-typed creation whose description collides with kernel policy, an
empty description where a plain secret type was expected or a reserved
dot-led description, is refused with permission denied. -/
def keyringPolicyCollision (desc : String) : Bool :=
  match desc.data with
  | [] => true
  | c :: _ => decide (c = Char.ofNat 46)

/-- ASCII bytes of the ByteBuf hex rendering of a byte sequence. -/
def hexBytes (bs : List Nat) : List Nat := strBytes (byteBufHex bs)

/-- Modelled from the spec (section 4.4): the opaque ASCII blob the kernel
stores for an encrypted key, beginning with the format word, then the
master key reference, the requested length and the hex-encoded encrypted
data. Reading the key returns exactly this blob. -/
def mkEncBlob (fmt kt mdesc klen master : List Nat) : List Nat :=
  fmt ++ [32] ++ kt ++ [58] ++ mdesc ++ [32] ++ klen ++ [32] ++ hexBytes master

/-- Parsed forms of an encrypted-key creation payload. -/
inductive EncCmd where
  | createNew (fmt kt mdesc klen : List Nat)
  | load (rest : List Nat)
  | badCmd
deriving DecidableEq

/-- Modelled from the spec (section 4.4): the kernel parser for
encrypted-key creation payloads, accepting the tagged new and load command
forms and refusing anything else. -/
def parseEncCmd (p : List Nat) : EncCmd :=
  match dropPre (strBytes ("load ")) p with
  | some rest => EncCmd.load rest
  | none =>
    match dropPre (strBytes ("new ")) p with
    | some rest =>
      match splitOnByte 32 rest with
      | [fmt, ktdesc, klen] =>
        match splitFirst 58 ktdesc with
        | some kd => EncCmd.createNew fmt kd.1 kd.2 klen
        | none => EncCmd.badCmd
      | _ => EncCmd.badCmd
    | none => EncCmd.badCmd

/-- Modelled from the spec (sections 4.3 and 4.4): the kernel parser for
the structured encrypted update command naming a master key type and
description; every other update payload shape is refused. -/
def parseUpdateCmd (p : List Nat) : Option (List Nat × List Nat) :=
  match dropPre (strBytes ("update ")) p with
  | some rest => splitFirst 58 rest
  | none => none

/-- Insertion of a freshly created key: the new key takes the next serial,
is listed first, and its description and payload bytes are charged against
the quota. -/
def insertKey (st : KernelState) (typeName desc : String) (payload : List Nat) :
    Int × KernelState :=
  (st.nextSerial,
    { st with
      keys := { serial := st.nextSerial, typeName := typeName,
                description := desc, payload := payload } :: st.keys
      nextSerial := st.nextSerial + 1
      quotaUsedBytes := st.quotaUsedBytes + desc.length + payload.length })

/-- Modelled from the spec (sections 4.2 to 4.5, order pinned by the tests
of src/src/tests/add.rs): the kernel add-key operation. An empty type name
and a zero keyring serial are invalid; a type the kernel does not support
is refused with errno 19; a description of page size or longer is invalid;
a keyring-typed add refuses any direct payload and refuses policy-colliding
descriptions with errno 1; every other type requires a description, and an
encrypted creation payload must parse as a new command naming an existing
master key or as a load command carrying a well-formed blob; plain secret
types store the payload verbatim, subject to the byte quota. -/
def kernelAddKey (st : KernelState) (kr : Int) (typeName desc : String)
    (payload : List Nat) : Except Nat (Int × KernelState) :=
  if typeName = "" then Except.error 22
  else if kr = 0 then Except.error 22
  else if typeName ∈ st.supportedTypes then
    if st.pageSize ≤ desc.length then Except.error 22
    else if typeName = "keyring" then
      if payload = [] then
        if keyringPolicyCollision desc then Except.error 1
        else Except.ok (insertKey st typeName desc payload)
      else Except.error 22
    else if desc = "" then Except.error 22
    else if typeName = "encrypted" then
      match parseEncCmd payload with
      | EncCmd.createNew fmt kt mdesc klen =>
        match findMasterIn st.keys kt mdesc with
        | some mk =>
          Except.ok (insertKey st typeName desc (mkEncBlob fmt kt mdesc klen mk.payload))
        | none => Except.error 126
      | EncCmd.load rest =>
        if listHasPre (strBytes ("default ")) rest then
          Except.ok (insertKey st typeName desc rest)
        else Except.error 22
      | EncCmd.badCmd => Except.error 22
    else
      if st.quotaMaxBytes < st.quotaUsedBytes + (desc.length + payload.length) then
        Except.error 122
      else Except.ok (insertKey st typeName desc payload)
  else Except.error 19

/-- Modelled from the spec (sections 4.4 and 4.5): reading a key returns
its stored payload verbatim; logon payloads are refused by the kernel. -/
def kernelRead (st : KernelState) (s : Int) : Except Nat (List Nat) :=
  match findKey st.keys s with
  | none => Except.error 126
  | some k => if k.typeName = "logon" then Except.error 13 else Except.ok k.payload

/-- Modelled from the spec (sections 4.3 to 4.5): updating a key. An
encrypted key accepts only the structured update command naming an existing
master key and refuses raw bytes with errno 22, leaving the key unchanged;
plain secret types replace the payload verbatim. -/
def kernelUpdate (st : KernelState) (s : Int) (p : List Nat) :
    Except Nat KernelState :=
  match findKey st.keys s with
  | none => Except.error 126
  | some k =>
    if k.typeName = "encrypted" then
      match parseUpdateCmd p with
      | some kd =>
        if (findMasterIn st.keys kd.1 kd.2).isSome then Except.ok st
        else Except.error 126
      | none => Except.error 22
    else Except.ok { st with keys := updatePayloadIn st.keys s p }

/-- Modelled from the spec (section 4.5): unlinking a key removes it from
the keyring, failing when the serial names no key. -/
def kernelUnlink (st : KernelState) (s : Int) : Except Nat KernelState :=
  if anySerial st.keys s then Except.ok { st with keys := removeKey st.keys s }
  else Except.error 126

/-- Modelled from the spec (section 4.5): the facade add-key operation,
issuing the syscall and translating the errno through the taxonomy. -/
def addKey (st : KernelState) (kr : Int) (typeName desc : String)
    (payload : List Nat) : Except KeyError (Int × KernelState) :=
  (kernelAddKey st kr typeName desc payload).mapError errnoToError

/-- Modelled from the spec (section 4.5): the facade read operation. -/
def readKey (st : KernelState) (s : Int) : Except KeyError (List Nat) :=
  (kernelRead st s).mapError errnoToError

/-- Modelled from the spec (section 4.5): the facade update operation. -/
def updateKey (st : KernelState) (s : Int) (p : List Nat) :
    Except KeyError KernelState :=
  (kernelUpdate st s p).mapError errnoToError

/-- Modelled from the spec (section 4.5): the facade unlink operation. -/
def unlinkKey (st : KernelState) (s : Int) : Except KeyError KernelState :=
  (kernelUnlink st s).mapError errnoToError

/-- Modelled from the spec (section 4.4): the typed encrypted-key payload
of the crate, with its tagged new, update and load variants. -/
inductive EncPayload where
  | newPayload (format : Option String) (keytype : String) (description : String) (keylen : Nat)
  | update (keytype : String) (description : String)
  | load (blob : List Nat)

/-- Modelled from the spec (section 4.4) and the test comment of
src/src/tests/add.rs: the crate encoder for encrypted-key payloads. The
new and update variants render the space and colon separated command
strings; the load variant renders the captured blob through the ByteBuf
lower-hex formatter, which is the encoding the regression test blames. -/
def encPayloadEncode : EncPayload → List Nat
  | EncPayload.newPayload fmt kt d klen =>
    strBytes ("new " ++ fmt.getD ("default") ++ " " ++ kt ++ ":" ++ d ++ " " ++ Nat.repr klen)
  | EncPayload.update kt d => strBytes ("update " ++ kt ++ ":" ++ d)
  | EncPayload.load blob => strBytes ("load " ++ byteBufHex blob)

/-- Modelled from the spec (section 4.1): checked construction of a keyring
serial validates the value against zero and wraps it; the zero value is a
programming-contract violation signalled by the none result, a signal of a
different shape from every kernel-reported KeyError, so a serial obtained
here never carries zero into a syscall. -/
def keyringSerialNew (v : Int) : Option Int :=
  if v = 0 then none else some v

theorem mapError_eq_ok {ε ε' α : Type} (f : ε → ε') (x : Except ε α) (a : α) :
    Except.mapError f x = Except.ok a ↔ x = Except.ok a := by
  cases x <;> simp [Except.mapError]

deriving instance DecidableEq for Except

/-- A concrete kernel state for the runs below: no keys yet, the first free
serial, a four-kibibyte page, an ample quota, and the standard type set. -/
def baseState : KernelState :=
  { keys := [], nextSerial := 1, pageSize := 4096, quotaUsedBytes := 0,
    quotaMaxBytes := 20000,
    supportedTypes := ["keyring", "user", "logon", "big_key", "encrypted",
      "asymmetric", "trusted", "dns_resolver", "blacklist", "rxrpc", "rxrpc_s"] }

/-- The state after an add, or the old state when the add failed. -/
def stepAdd (r : Except KeyError (Int × KernelState)) (d : KernelState) : KernelState :=
  match r with
  | Except.ok p => p.2
  | Except.error _ => d

/-- The state after an update or unlink, or the old state on failure. -/
def stepSt (r : Except KeyError KernelState) (d : KernelState) : KernelState :=
  match r with
  | Except.ok s2 => s2
  | Except.error _ => d

/-- The New creation payload of the regression test: default format, a user
master key named foo, thirty-two requested bytes. -/
def c1NewPayload : EncPayload :=
  EncPayload.newPayload (some ("default")) ("user") ("foo") 32

/-- State after adding the user master key foo with payload bar. -/
def c1St1 : KernelState :=
  stepAdd (addKey baseState (-3) ("user") ("foo") (strBytes ("bar"))) baseState

/-- State after adding the encrypted key baz under master key foo. -/
def c1St2 : KernelState :=
  stepAdd (addKey c1St1 (-3) ("encrypted") ("baz") (encPayloadEncode c1NewPayload)) c1St1

/-- The ASCII blob the modelled kernel stores for the encrypted key and
returns from a read. -/
def c1Blob : List Nat := strBytes ("default user:foo 32 626172")

/-- State after unlinking the encrypted key. -/
def c1St3 : KernelState := stepSt (unlinkKey c1St2 2) c1St2

/-- Result of handing the kernel the load command carrying the captured
blob verbatim, without the crate encoder, then reading the new key back. -/
def c1RawLoadRead : Except Nat (List Nat) :=
  match kernelAddKey c1St3 (-3) ("encrypted") ("qux") (strBytes ("load ") ++ c1Blob) with
  | Except.ok p => kernelRead p.2 p.1
  | Except.error e => Except.error e

/-- C1: in the regression scenario, reading the encrypted key yields the
opaque blob, unlinking succeeds, and re-adding through the crate Load
encoder fails with InvalidArgument because the encoder re-encodes the
already-ASCII blob through the ByteBuf hex formatter, whereas handing the
kernel the same blob verbatim succeeds and preserves it byte for byte.
This run evaluates the code at the failing input of the code-bug report. -/
theorem c1_load_bug :
    addKey baseState (-3) ("user") ("foo") (strBytes ("bar")) = Except.ok (1, c1St1) ∧
    addKey c1St1 (-3) ("encrypted") ("baz") (encPayloadEncode c1NewPayload) =
      Except.ok (2, c1St2) ∧
    readKey c1St2 2 = Except.ok c1Blob ∧
    unlinkKey c1St2 2 = Except.ok c1St3 ∧
    addKey c1St3 (-3) ("encrypted") ("qux") (encPayloadEncode (EncPayload.load c1Blob)) =
      Except.error KeyError.InvalidArgument ∧
    c1RawLoadRead = Except.ok c1Blob :=
  ⟨rfl, rfl, rfl, rfl, rfl, rfl⟩

/-- C2: whenever adding a user key with description and payload bytes
succeeds, reading the new key returns exactly the payload, and after an
update with any new payload a subsequent read returns exactly the new
payload. -/
theorem c2_user_round_trip (st : KernelState) (kr : Int) (desc : String)
    (P Q : List Nat) (s : Int) (st1 : KernelState)
    (h1 : addKey st kr ("user") desc P = Except.ok (s, st1)) :
    readKey st1 s = Except.ok P ∧
    ∃ st2, updateKey st1 s Q = Except.ok st2 ∧ readKey st2 s = Except.ok Q := by
  simp only [addKey] at h1
  rw [mapError_eq_ok] at h1
  simp only [kernelAddKey] at h1
  rw [if_neg (show ¬ (("user" : String) = "") by decide),
    if_neg (show ¬ (("user" : String) = "keyring") by decide),
    if_neg (show ¬ (("user" : String) = "encrypted") by decide)] at h1
  split at h1
  · exact Except.noConfusion h1
  · split at h1
    · split at h1
      · exact Except.noConfusion h1
      · split at h1
        · exact Except.noConfusion h1
        · split at h1
          · exact Except.noConfusion h1
          · simp only [insertKey] at h1
            injection h1 with h2
            rw [Prod.mk.injEq] at h2
            obtain ⟨hs, hst⟩ := h2
            subst hs
            subst hst
            constructor
            · simp [readKey, kernelRead, findKey, Except.mapError]
            · refine ⟨{ st with
                keys := { serial := st.nextSerial, typeName := "user",
                          description := desc, payload := Q } ::
                  updatePayloadIn st.keys st.nextSerial Q
                nextSerial := st.nextSerial + 1
                quotaUsedBytes := st.quotaUsedBytes + desc.length + P.length }, ?_, ?_⟩
              · simp [updateKey, kernelUpdate, findKey, updatePayloadIn, Except.mapError]
              · simp [readKey, kernelRead, findKey, Except.mapError]
    · exact Except.noConfusion h1

/-- State after the add of the witness run for C2: the user key wibble
holding the bytes of stuff. -/
def c2St1 : KernelState :=
  stepAdd (addKey baseState (-3) ("user") ("wibble") (strBytes ("stuff"))) baseState

/-- Witness for C2 at the concrete run of the repository test: add wibble
with payload stuff, then update to lizard. -/
theorem c2_user_round_trip_witness :
    readKey c2St1 1 = Except.ok (strBytes ("stuff")) ∧
    ∃ st2, updateKey c2St1 1 (strBytes ("lizard")) = Except.ok st2 ∧
      readKey st2 1 = Except.ok (strBytes ("lizard")) :=
  c2_user_round_trip baseState (-3) ("wibble") (strBytes ("stuff"))
    (strBytes ("lizard")) 1 c2St1 (by decide)

theorem dropPre_append (pre rest : List Nat) : dropPre pre (pre ++ rest) = some rest := by
  induction pre with
  | nil => rfl
  | cons p ps ih => simp [dropPre, ih]

theorem splitFirst_append (b : Nat) (l r : List Nat) (h : ¬ b ∈ l) :
    splitFirst b (l ++ b :: r) = some (l, r) := by
  induction l with
  | nil => simp [splitFirst]
  | cons x xs ih =>
    have hx : ¬ (x = b) := fun he => h (he ▸ List.mem_cons_self x xs)
    have hr := ih (fun hm => h (List.mem_cons_of_mem x hm))
    simp [splitFirst, hx, hr]

theorem strBytes_append (a b : String) : strBytes (a ++ b) = strBytes a ++ strBytes b := by
  cases a with
  | mk d1 =>
    cases b with
    | mk d2 =>
      rw [mk_append]
      simp [strBytes, List.map_append]

/-- The crate encoding of the structured update payload parses back, on the
modelled kernel side, to exactly the master key type and description it
names, provided the type name carries no colon. -/
theorem parseUpdateCmd_encode (kt d : String) (h : ¬ (58 ∈ strBytes kt)) :
    parseUpdateCmd (encPayloadEncode (EncPayload.update kt d)) =
      some (strBytes kt, strBytes d) := by
  have he : encPayloadEncode (EncPayload.update kt d) =
      strBytes ("update ") ++ (strBytes kt ++ (58 :: strBytes d)) := by
    simp only [encPayloadEncode]
    rw [strBytes_append, strBytes_append, strBytes_append]
    have hc : strBytes (":") = [58] := by decide
    rw [hc]
    simp [List.append_assoc]
  rw [he]
  simp only [parseUpdateCmd]
  rw [dropPre_append]
  exact splitFirst_append 58 (strBytes kt) (strBytes d) h

/-- C3: an encrypted key refuses a raw-bytes update, any payload that does
not parse as the structured update command, with InvalidArgument and no
state change, while the encoded form of a structured Update payload naming
an existing master key succeeds. -/
theorem c3_encrypted_update (st : KernelState) (s : Int) (k : KernelKey)
    (raw : List Nat) (kt2 d2 : String)
    (hk : findKey st.keys s = some k) (ht : k.typeName = "encrypted")
    (hraw : parseUpdateCmd raw = none) (hcolon : ¬ (58 ∈ strBytes kt2))
    (hmaster : (findMasterIn st.keys (strBytes kt2) (strBytes d2)).isSome = true) :
    updateKey st s raw = Except.error KeyError.InvalidArgument ∧
    updateKey st s (encPayloadEncode (EncPayload.update kt2 d2)) = Except.ok st := by
  constructor
  · simp only [updateKey, kernelUpdate]
    rw [hk]
    simp [ht, hraw, Except.mapError, errnoToError]
  · simp only [updateKey, kernelUpdate]
    rw [hk]
    simp [ht, parseUpdateCmd_encode kt2 d2 hcolon, hmaster, Except.mapError]

/-- A concrete state holding an encrypted key baz created under the user
master key foo, plus a second user key bar, as in the update test. -/
def c3State : KernelState :=
  { keys := [
      { serial := 3, typeName := "encrypted", description := "baz",
        payload := strBytes ("default user:foo 32 626172") },
      { serial := 1, typeName := "user", description := "foo",
        payload := strBytes ("bar") },
      { serial := 2, typeName := "user", description := "bar",
        payload := strBytes ("foo") } ],
    nextSerial := 4, pageSize := 4096, quotaUsedBytes := 0,
    quotaMaxBytes := 20000,
    supportedTypes := ["keyring", "user", "logon", "big_key", "encrypted"] }

/-- Witness for C3: the raw bytes of qux are refused, the encoded Update
payload naming the other user key bar is accepted. -/
theorem c3_encrypted_update_witness :
    updateKey c3State 3 (strBytes ("qux")) = Except.error KeyError.InvalidArgument ∧
    updateKey c3State 3 (encPayloadEncode (EncPayload.update ("user") ("bar"))) =
      Except.ok c3State :=
  c3_encrypted_update c3State 3
    { serial := 3, typeName := "encrypted", description := "baz",
      payload := strBytes ("default user:foo 32 626172") }
    (strBytes ("qux")) ("user") ("bar") (by decide) rfl (by decide) (by decide) (by decide)

/-- C4: for the page-limited user type, a description of length exactly
page size minus one (the kernel adds the terminator) is accepted whenever
the byte quota permits and refused with QuotaExceeded when it does not,
while a description one byte longer, of length exactly page size, is
refused with InvalidArgument whatever the quota counters hold. -/
theorem c4_description_bounds (st : KernelState) (kr : Int)
    (descMax descOver : String) (payload : List Nat)
    (hkr : kr ≠ 0) (hsupp : ("user" : String) ∈ st.supportedTypes)
    (hpage : 2 ≤ st.pageSize) (hmax : descMax.length = st.pageSize - 1)
    (hover : descOver.length = st.pageSize) :
    (st.quotaUsedBytes + (descMax.length + payload.length) ≤ st.quotaMaxBytes →
      addKey st kr ("user") descMax payload =
        Except.ok (insertKey st ("user") descMax payload)) ∧
    (st.quotaMaxBytes < st.quotaUsedBytes + (descMax.length + payload.length) →
      addKey st kr ("user") descMax payload = Except.error KeyError.QuotaExceeded) ∧
    (∀ q1 q2 : Nat,
      addKey { st with quotaUsedBytes := q1, quotaMaxBytes := q2 } kr ("user")
          descOver payload = Except.error KeyError.InvalidArgument) := by
  have hne : ¬ (descMax = "") := by
    intro he
    rw [he] at hmax
    have h0 : ("" : String).length = 0 := rfl
    omega
  refine ⟨?_, ?_, ?_⟩
  · intro hq
    simp only [addKey, kernelAddKey]
    rw [if_neg (show ¬ (("user" : String) = "") by decide), if_neg hkr, if_pos hsupp,
      if_neg (show ¬ (st.pageSize ≤ descMax.length) by omega),
      if_neg (show ¬ (("user" : String) = "keyring") by decide), if_neg hne,
      if_neg (show ¬ (("user" : String) = "encrypted") by decide),
      if_neg (show ¬ (st.quotaMaxBytes < st.quotaUsedBytes + (descMax.length + payload.length)) by omega)]
    rfl
  · intro hq
    simp only [addKey, kernelAddKey]
    rw [if_neg (show ¬ (("user" : String) = "") by decide), if_neg hkr, if_pos hsupp,
      if_neg (show ¬ (st.pageSize ≤ descMax.length) by omega),
      if_neg (show ¬ (("user" : String) = "keyring") by decide), if_neg hne,
      if_neg (show ¬ (("user" : String) = "encrypted") by decide),
      if_pos hq]
    rfl
  · intro q1 q2
    have hsupp2 : ("user" : String) ∈
        ({ st with quotaUsedBytes := q1, quotaMaxBytes := q2 } : KernelState).supportedTypes :=
      hsupp
    have hpg2 : ({ st with quotaUsedBytes := q1, quotaMaxBytes := q2 } : KernelState).pageSize ≤
        descOver.length := by
      show st.pageSize ≤ descOver.length
      omega
    simp only [addKey, kernelAddKey]
    rw [if_neg (show ¬ (("user" : String) = "") by decide), if_neg hkr, if_pos hsupp2,
      if_pos hpg2]
    rfl

/-- A small-page variant of the base state so the bounds are concrete. -/
def tinyState : KernelState := { baseState with pageSize := 4 }

/-- Witness for C4 on a page size of four: the three-byte description is
accepted under an ample quota, refused with QuotaExceeded under a two-byte
quota, and the four-byte description is refused whatever the quota. -/
theorem c4_description_bounds_witness :
    addKey tinyState (-2) ("user") ("aaa") (strBytes ("hi")) =
      Except.ok (insertKey tinyState ("user") ("aaa") (strBytes ("hi"))) ∧
    addKey { tinyState with quotaMaxBytes := 2 } (-2) ("user") ("aaa") (strBytes ("hi")) =
      Except.error KeyError.QuotaExceeded ∧
    addKey { tinyState with quotaUsedBytes := 5, quotaMaxBytes := 9000 } (-2) ("user")
        ("aaaa") (strBytes ("hi")) = Except.error KeyError.InvalidArgument :=
  ⟨(c4_description_bounds tinyState (-2) ("aaa") ("aaaa") (strBytes ("hi"))
      (by decide) (by decide) (by decide) (by decide) (by decide)).1 (by decide),
   (c4_description_bounds { tinyState with quotaMaxBytes := 2 } (-2) ("aaa") ("aaaa")
      (strBytes ("hi")) (by decide) (by decide) (by decide) (by decide) (by decide)).2.1
      (by decide),
   (c4_description_bounds tinyState (-2) ("aaa") ("aaaa") (strBytes ("hi"))
      (by decide) (by decide) (by decide) (by decide) (by decide)).2.2 5 9000⟩

/-- Counterexample for C5 as stated: with a key type the kernel does not
support, adding a key with an empty description fails with
UnsupportedKeyType, not InvalidArgument, exactly as the repository test
expecting errno 19 at an empty description pins. -/
theorem c5_counterexample :
    addKey baseState (-2) ("unregistered") ("") [] ≠
      Except.error KeyError.InvalidArgument ∧
    addKey baseState (-2) ("unregistered") ("") [] =
      Except.error KeyError.UnsupportedKeyType := by
  decide

/-- C5 amended: for every kernel-supported key type other than keyring,
adding a key with an empty description fails with InvalidArgument; the
rejection is reported by the kernel syscall rather than by an encode-time
check, and an unsupported key type fails with UnsupportedKeyType instead. -/
theorem c5_amended_empty_description (st : KernelState) (kr : Int)
    (typeName : String) (payload : List Nat)
    (hname : typeName ≠ "") (hkr : kr ≠ 0)
    (hsupp : typeName ∈ st.supportedTypes) (hnk : typeName ≠ "keyring")
    (hpage : 1 ≤ st.pageSize) :
    addKey st kr typeName ("") payload = Except.error KeyError.InvalidArgument := by
  have h0 : ("" : String).length = 0 := rfl
  have hk : kernelAddKey st kr typeName ("") payload = Except.error 22 := by
    simp only [kernelAddKey]
    rw [if_neg hname, if_neg hkr, if_pos hsupp,
      if_neg (show ¬ (st.pageSize ≤ ("" : String).length) by omega),
      if_neg hnk]
    rfl
  simp only [addKey]
  rw [hk]
  rfl

/-- Witness for the amended C5 at the user type with an empty description. -/
theorem c5_amended_witness :
    addKey baseState (-2) ("user") ("") (strBytes ("payload")) =
      Except.error KeyError.InvalidArgument :=
  c5_amended_empty_description baseState (-2) ("user") (strBytes ("payload"))
    (by decide) (by decide) (by decide) (by decide) (by decide)

/-- C6: adding a key of the payload-less keyring type with a non-empty
direct payload fails with InvalidArgument. -/
theorem c6_keyring_payload (st : KernelState) (kr : Int) (desc : String)
    (payload : List Nat) (hkr : kr ≠ 0)
    (hsupp : ("keyring" : String) ∈ st.supportedTypes)
    (hdesc : desc.length < st.pageSize) (hp : payload ≠ []) :
    addKey st kr ("keyring") desc payload = Except.error KeyError.InvalidArgument := by
  have hk : kernelAddKey st kr ("keyring") desc payload = Except.error 22 := by
    simp only [kernelAddKey]
    rw [if_neg (show ¬ (("keyring" : String) = "") by decide), if_neg hkr, if_pos hsupp,
      if_neg (show ¬ (st.pageSize ≤ desc.length) by omega), if_neg hp]
    rfl
  simp only [addKey]
  rw [hk]
  rfl

/-- Witness for C6 at the keyring type carrying the payload bytes of the
repository test. -/
theorem c6_keyring_payload_witness :
    addKey baseState (-2) ("keyring") ("") (strBytes ("payload")) =
      Except.error KeyError.InvalidArgument :=
  c6_keyring_payload baseState (-2) ("") (strBytes ("payload"))
    (by decide) (by decide) (by decide) (by decide)

/-- C7: adding a key through the keyring type where a plain secret type was
expected, with a description colliding with kernel policy, fails with
PermissionDenied. -/
theorem c7_keyring_policy (st : KernelState) (kr : Int) (desc : String)
    (hkr : kr ≠ 0) (hsupp : ("keyring" : String) ∈ st.supportedTypes)
    (hdesc : desc.length < st.pageSize)
    (hcol : keyringPolicyCollision desc = true) :
    addKey st kr ("keyring") desc [] = Except.error KeyError.PermissionDenied := by
  have hk : kernelAddKey st kr ("keyring") desc [] = Except.error 1 := by
    simp only [kernelAddKey]
    rw [if_neg (show ¬ (("keyring" : String) = "") by decide), if_neg hkr, if_pos hsupp,
      if_neg (show ¬ (st.pageSize ≤ desc.length) by omega), if_pos hcol]
    rfl
  simp only [addKey]
  rw [hk]
  rfl

/-- Witness for C7 at the empty description, the collision of the test. -/
theorem c7_keyring_policy_witness :
    addKey baseState (-2) ("keyring") ("") [] = Except.error KeyError.PermissionDenied :=
  c7_keyring_policy baseState (-2) ("") (by decide) (by decide) (by decide) (by decide)

/-- C8: with a non-empty type name the kernel does not support and a valid
keyring serial, adding a key fails with UnsupportedKeyType for every
description and payload. -/
theorem c8_unsupported_type (st : KernelState) (kr : Int) (typeName desc : String)
    (payload : List Nat) (hkr : kr ≠ 0) (hname : typeName ≠ "")
    (hsupp : typeName ∉ st.supportedTypes) :
    addKey st kr typeName desc payload = Except.error KeyError.UnsupportedKeyType := by
  have hk : kernelAddKey st kr typeName desc payload = Except.error 19 := by
    simp only [kernelAddKey]
    rw [if_neg hname, if_neg hkr, if_neg hsupp]
  simp only [addKey]
  rw [hk]
  rfl

/-- Witness for C8 at a type name missing from the supported set. -/
theorem c8_unsupported_type_witness :
    addKey baseState (-2) ("bogus_key") ("desc") [1, 2] =
      Except.error KeyError.UnsupportedKeyType :=
  c8_unsupported_type baseState (-2) ("bogus_key") ("desc") [1, 2]
    (by decide) (by decide) (by decide)

/-- C9: constructing a keyring serial from zero is refused by the checked
constructor with the none signal, a contract violation of a different shape
from every kernel-reported KeyError; every serial the constructor does
yield is non-zero, so a zero serial never reaches the kernel through the
facade, and every non-zero value is wrapped as given. -/
theorem c9_zero_serial :
    keyringSerialNew 0 = none ∧
    (∀ v s : Int, keyringSerialNew v = some s → s ≠ 0) ∧
    (∀ v : Int, v ≠ 0 → keyringSerialNew v = some v) := by
  refine ⟨rfl, ?_, ?_⟩
  · intro v s h
    by_cases hv : v = 0
    · subst hv
      simp [keyringSerialNew] at h
    · simp only [keyringSerialNew] at h
      rw [if_neg hv] at h
      have hvs := Option.some.inj h
      omega
  · intro v hv
    simp only [keyringSerialNew]
    rw [if_neg hv]

/-- Witness for C9 at the values zero and five. -/
theorem c9_zero_serial_witness :
    keyringSerialNew 0 = none ∧ (5 : Int) ≠ 0 ∧ keyringSerialNew 5 = some 5 :=
  ⟨c9_zero_serial.1, c9_zero_serial.2.1 5 5 (by decide), c9_zero_serial.2.2 5 (by decide)⟩
